import Mathlib

/- Verification development for the FEF v0 binary codec: the variable-length
   unsigned-integer primitive, its ordering, the expression-tree codec, and the
   configuration and metadata section codecs.  Byte streams are modelled as
   `List Nat` with each element a byte value below 256; readers are functions
   from the stream to an optional result together with the unread remainder of
   the stream, so the stream-cursor position is explicit. -/

namespace FEFSpec

/-- Comparison of two natural numbers, mirroring `u64::cmp` / `usize::cmp`. -/
def natCmp (a b : Nat) : Ordering :=
  if a < b then .lt else if a = b then .eq else .gt

/-- Lexicographic comparison of two byte sequences, mirroring Rust
`Iterator::cmp` on two byte iterators. -/
def lexCmp : List Nat → List Nat → Ordering
  | [], [] => .eq
  | [], _ :: _ => .lt
  | _ :: _, [] => .gt
  | a :: as, b :: bs =>
    match natCmp a b with
    | .eq => lexCmp as bs
    | o => o

/-- Storage of a `VariableLengthEnum` (`src/v0/raw/variable_length_enum.rs`,
`VariableLengthEnumStorage`): either a value that fits 64 bits (`U64`), or the
raw wire bytes of a larger value (`Overflow`), stored without leading `0x80`
padding bytes. -/
inductive VLEStorage where
  | u64 : Nat → VLEStorage
  | overflow : List Nat → VLEStorage
deriving DecidableEq

/-- Numeric value represented by a `VariableLengthEnumStorage`: the fast path
holds the value directly; an overflow byte list represents the big-endian
base-128 number formed by the low 7 bits of each byte. -/
def storageVal : VLEStorage → Nat
  | .u64 n => n
  | .overflow bs => bs.foldl (fun a b => a * 128 + b % 128) 0

/-- `VariableLengthEnumStorage::cmp` (`src/v0/raw/variable_length_enum.rs`
lines 60-81): two `U64` values compare as numbers; `U64` is less than any
`Overflow`; two `Overflow` values compare by byte length first and, at equal
length, by `self_overflow.iter().rev().cmp(other_overflow.iter().rev())`,
i.e. lexicographically on the REVERSED byte sequences. -/
def storageCmp : VLEStorage → VLEStorage → Ordering
  | .u64 a, .u64 b => natCmp a b
  | .u64 _, .overflow _ => .lt
  | .overflow _, .u64 _ => .gt
  | .overflow a, .overflow b =>
    let lenCmp := natCmp a.length b.length
    if lenCmp ≠ .eq then lenCmp else lexCmp a.reverse b.reverse

/-- Core loop of `VariableLengthEnum::read_from`
(`src/v0/raw/variable_length_enum.rs` lines 209-258).  `byteVec` is the
`byte_vec` accumulator of raw bytes, `acc` the optional 64-bit accumulator.
A byte equal to `0x80` read while `byte_vec` is empty is padding and is
skipped.  Otherwise the byte is pushed to `byte_vec`; the accumulator is
shifted left 7 bits and ORed with the low 7 bits of the byte if that does not
overflow 64 bits (`inner.leading_zeros() >= 7`, i.e. `inner < 2^57`),
otherwise it is invalidated permanently.  Reading stops at the first byte
whose high bit is clear; end of input before that is an error (`none`). -/
def vleReadAux : List Nat → List Nat → Option Nat → Option ((List Nat × Option Nat) × List Nat)
  | [], _, _ => none
  | b :: rest, byteVec, acc =>
    if b = 0x80 ∧ byteVec = [] then
      vleReadAux rest byteVec acc
    else
      let byteVec' := byteVec ++ [b]
      let acc' :=
        match acc with
        | some inner => if inner < 2 ^ 57 then some (inner * 128 + b % 128) else none
        | none => none
      if b < 0x80 then some ((byteVec', acc'), rest)
      else vleReadAux rest byteVec' acc'

/-- `VariableLengthEnum::read_from`: runs the reading loop on the stream and
keeps the 64-bit accumulator if it survived, else the raw overflow bytes.
Returns the parsed storage together with the unread remainder of the stream. -/
def vleRead (s : List Nat) : Option (VLEStorage × List Nat) :=
  match vleReadAux s [] (some 0) with
  | none => none
  | some ((_, some a), rest) => some (.u64 a, rest)
  | some ((bv, none), rest) => some (.overflow bv, rest)

/-- `TryInto<usize> for VariableLengthEnum`: a fast-path value converts
directly (the machine width is 64 bits, so `u64 -> usize` cannot fail);
an overflow value is always `TooBig`. -/
def storageToUsize : VLEStorage → Option Nat
  | .u64 n => some n
  | .overflow _ => none

/-- Minimal base-128 big-endian encoding of a natural number, continuation
bit (`0x80`) set on every byte except the last.  Modelled from the spec:
`VariableLengthEnum`'s `WriteTo` implementation and the
`min_byte_length_of_usize` helper are not among the provided sources; the
spec mandates big-endian base-128 groups with the high bit marking
continuation and no leading padding on encode. -/
def vleWriteContFuel : Nat → Nat → List Nat
  | 0, _ => []
  | _ + 1, 0 => []
  | fuel + 1, n + 1 => vleWriteContFuel fuel ((n + 1) / 128) ++ [0x80 + (n + 1) % 128]

/-- Continuation-bit part of the minimal encoding: the base-128 digits of
`n` above the lowest one, each with the high bit set.  The fuel argument
only serves structural termination (`n / 128 < n` for positive `n`, so `n`
steps always suffice). -/
def vleWriteCont (n : Nat) : List Nat := vleWriteContFuel n n

/-- Minimal wire encoding of a natural number as a variable-length enum:
all base-128 digits above the lowest carry the continuation bit. -/
def vleWrite (n : Nat) : List Nat :=
  vleWriteCont (n / 128) ++ [n % 128]

/-- Wire encoding of a stored variable-length enum.  Modelled from the spec:
a fast-path value is written minimally; an overflow value's stored bytes are
already its wire encoding without leading padding. -/
def vleWriteStorage : VLEStorage → List Nat
  | .u64 n => vleWrite n
  | .overflow bs => bs

/-- Modelled from the spec: minimal encoded byte length of a value
(`VariableLengthEnum::min_byte_length_of_usize`, not among the provided
sources) is the length of its minimal encoding. -/
def minByteLenOfNat (n : Nat) : Nat := (vleWrite n).length

/-- Modelled from the spec: minimal encoded byte length of a stored
variable-length enum (`VariableLengthEnum::min_byte_length`, not among the
provided sources). -/
def storageMinByteLength : VLEStorage → Nat
  | .u64 n => minByteLenOfNat n
  | .overflow bs => bs.length

theorem vleRead_skip_pad (rest : List Nat) : vleRead (0x80 :: rest) = vleRead rest := by
  simp [vleRead, vleReadAux]

theorem vleRead_terminal (b : Nat) (rest : List Nat) (hb : b < 0x80) :
    vleRead (b :: rest) = some (.u64 b, rest) := by
  have hne : b ≠ 0x80 := by omega
  simp [vleRead, vleReadAux, hne, hb, Nat.mod_eq_of_lt hb]

/-- C9: varint decoding treats any number of leading `0x80` bytes as padding
and stops at the first byte with a clear high bit, leaving later bytes
unread: a leading `0x80` never changes the result, a clear-high-bit first
byte terminates immediately with that byte's value, and in particular
`[0x80, 0x2A]` and `[0x2A]` both decode to 42 with the cursor right after
the terminal byte. -/
theorem c9_varint_padding :
    (∀ rest : List Nat, vleRead (0x80 :: rest) = vleRead rest) ∧
    (∀ (b : Nat) (rest : List Nat), b < 0x80 →
      vleRead (b :: rest) = some (.u64 b, rest)) ∧
    vleRead [0x80, 0x2A] = some (.u64 42, []) ∧
    vleRead [0x2A] = some (.u64 42, []) := by
  refine ⟨vleRead_skip_pad, vleRead_terminal, ?_, ?_⟩ <;> decide

theorem c9_varint_padding_witness :
    vleRead [0x2A, 0x99] = some (.u64 42, [0x99]) :=
  c9_varint_padding.2.1 0x2A [0x99] (by decide)

/-- C5 counterexample: two overflow-path values actually produced by the
reader, of equal byte length, on which the code's comparison is `gt` even
though the most-significant-byte-first comparison of their contents is `lt`
and the first represents the numerically smaller integer.  This refutes the
claim that equal-length overflow values compare by their content taken
most-significant-byte first (and with it the claim that ordering always
coincides with numeric magnitude). -/
theorem c5_ordering_counterexample :
    vleRead [0x81, 0x80, 0x80, 0x80, 0x80, 0x80, 0x80, 0x80, 0x80, 0x80, 0x02] =
      some (.overflow [0x81, 0x80, 0x80, 0x80, 0x80, 0x80, 0x80, 0x80, 0x80, 0x80, 0x02], []) ∧
    vleRead [0x82, 0x80, 0x80, 0x80, 0x80, 0x80, 0x80, 0x80, 0x80, 0x80, 0x01] =
      some (.overflow [0x82, 0x80, 0x80, 0x80, 0x80, 0x80, 0x80, 0x80, 0x80, 0x80, 0x01], []) ∧
    storageVal (.overflow [0x81, 0x80, 0x80, 0x80, 0x80, 0x80, 0x80, 0x80, 0x80, 0x80, 0x02]) <
      storageVal (.overflow [0x82, 0x80, 0x80, 0x80, 0x80, 0x80, 0x80, 0x80, 0x80, 0x80, 0x01]) ∧
    storageCmp (.overflow [0x81, 0x80, 0x80, 0x80, 0x80, 0x80, 0x80, 0x80, 0x80, 0x80, 0x02])
      (.overflow [0x82, 0x80, 0x80, 0x80, 0x80, 0x80, 0x80, 0x80, 0x80, 0x80, 0x01]) = .gt ∧
    lexCmp [0x81, 0x80, 0x80, 0x80, 0x80, 0x80, 0x80, 0x80, 0x80, 0x80, 0x02]
      [0x82, 0x80, 0x80, 0x80, 0x80, 0x80, 0x80, 0x80, 0x80, 0x80, 0x01] = .lt := by
  refine ⟨?_, ?_, ?_, ?_, ?_⟩ <;> decide

/-- C5 amended: fast-path (64-bit) values compare by numeric magnitude;
every fast-path value compares less than every overflow-path value; and two
overflow-path values compare by byte length first — values of different
byte lengths compare exactly as their lengths do — and, at equal length,
lexicographically on their byte content taken in REVERSED order
(least-significant group first), not most-significant-byte first. -/
theorem c5_ordering_amended :
    (∀ a b : Nat, a < 2 ^ 64 → b < 2 ^ 64 →
      (a < b ↔ storageCmp (.u64 a) (.u64 b) = .lt)) ∧
    (∀ (a : Nat) (bs : List Nat),
      storageCmp (.u64 a) (.overflow bs) = .lt ∧
      storageCmp (.overflow bs) (.u64 a) = .gt) ∧
    (∀ xs ys : List Nat, xs.length ≠ ys.length →
      storageCmp (.overflow xs) (.overflow ys) = natCmp xs.length ys.length) ∧
    (∀ xs ys : List Nat, xs.length = ys.length →
      storageCmp (.overflow xs) (.overflow ys) = lexCmp xs.reverse ys.reverse) := by
  refine ⟨?_, ?_, ?_, ?_⟩
  · intro a b _ _
    constructor
    · intro h
      simp [storageCmp, natCmp, h]
    · intro h
      by_contra hab
      rcases Nat.lt_or_ge b a with hba | hba
      · simp [storageCmp, natCmp, Nat.lt_asymm hba, Nat.ne_of_gt hba] at h
      · have : a = b := Nat.le_antisymm hba (Nat.le_of_not_lt hab)
        simp [storageCmp, natCmp, this] at h
  · intro a bs
    exact ⟨rfl, rfl⟩
  · intro xs ys h
    have hne : natCmp xs.length ys.length ≠ .eq := by
      rcases Nat.lt_trichotomy xs.length ys.length with hlt | heq | hgt
      · simp [natCmp, hlt]
      · exact absurd heq h
      · simp [natCmp, Nat.lt_asymm hgt, h]
    simp [storageCmp, hne]
  · intro xs ys h
    simp [storageCmp, natCmp, h]

theorem c5_ordering_amended_witness :
    storageCmp (.u64 3) (.u64 5) = .lt ∧
    storageCmp (.u64 7) (.overflow [1, 2]) = .lt ∧
    storageCmp (.overflow [9]) (.overflow [5, 6]) = .lt ∧
    storageCmp (.overflow [5, 6]) (.overflow [7, 8]) = lexCmp [6, 5] [8, 7] := by
  refine ⟨(c5_ordering_amended.1 3 5 (by decide) (by decide)).mp (by decide),
    (c5_ordering_amended.2.1 7 [1, 2]).1, ?_, ?_⟩
  · have h := c5_ordering_amended.2.2.1 [9] [5, 6] (by decide)
    rw [h]
    decide
  · have h := c5_ordering_amended.2.2.2 [5, 6] [7, 8] rfl
    simpa using h

/-- Expression token identifiers (`src/v0/tokens/expr.rs`, `ExprToken`). -/
inductive ExprToken where
  | variable
  | trueLiteral
  | falseLiteral
  | addition
  | subtraction
  | multiplication
  | division
  | intDivision
  | modulo
  | power
  | negation
  | root
  | intRoot
  | square
  | cube
  | squareRoot
  | cubeRoot
  | reciprocal
  | signedIntLiteral8
  | signedIntLiteral16
  | signedIntLiteral32
  | signedIntLiteral64
  | unsignedIntLiteral8
  | unsignedIntLiteral16
  | unsignedIntLiteral32
  | unsignedIntLiteral64
  | binaryFloatLiteral32
  | binaryFloatLiteral64
deriving DecidableEq

/-- Numeric discriminants of `ExprToken` (`src/v0/tokens/expr.rs` lines
16-45), used by the writer through `*self as usize`.  Note the source
declares `UnsignedIntLiteral64 = 0x3CF`. -/
def ExprToken.toNat : ExprToken → Nat
  | .variable => 0x04
  | .trueLiteral => 0x0A
  | .falseLiteral => 0x0B
  | .addition => 0x10
  | .subtraction => 0x11
  | .multiplication => 0x12
  | .division => 0x13
  | .intDivision => 0x14
  | .modulo => 0x15
  | .power => 0x16
  | .negation => 0x17
  | .root => 0x18
  | .intRoot => 0x19
  | .square => 0x20
  | .cube => 0x21
  | .squareRoot => 0x22
  | .cubeRoot => 0x23
  | .reciprocal => 0x24
  | .signedIntLiteral8 => 0x30
  | .signedIntLiteral16 => 0x31
  | .signedIntLiteral32 => 0x33
  | .signedIntLiteral64 => 0x34
  | .unsignedIntLiteral8 => 0x38
  | .unsignedIntLiteral16 => 0x39
  | .unsignedIntLiteral32 => 0x3B
  | .unsignedIntLiteral64 => 0x3CF
  | .binaryFloatLiteral32 => 0x42
  | .binaryFloatLiteral64 => 0x43

/-- `TryFrom<usize> for ExprToken` (`src/v0/tokens/expr.rs` lines 81-120):
the reader's identifier table.  Identifier `0x3C` maps to
`UnsignedIntLiteral64`; any value outside the table (including `0x3CF`) is
not recognized. -/
def ExprToken.fromNat : Nat → Option ExprToken
  | 0x04 => some .variable
  | 0x0A => some .trueLiteral
  | 0x0B => some .falseLiteral
  | 0x10 => some .addition
  | 0x11 => some .subtraction
  | 0x12 => some .multiplication
  | 0x13 => some .division
  | 0x14 => some .intDivision
  | 0x15 => some .modulo
  | 0x16 => some .power
  | 0x17 => some .negation
  | 0x18 => some .root
  | 0x19 => some .intRoot
  | 0x20 => some .square
  | 0x21 => some .cube
  | 0x22 => some .squareRoot
  | 0x23 => some .cubeRoot
  | 0x24 => some .reciprocal
  | 0x30 => some .signedIntLiteral8
  | 0x31 => some .signedIntLiteral16
  | 0x33 => some .signedIntLiteral32
  | 0x34 => some .signedIntLiteral64
  | 0x38 => some .unsignedIntLiteral8
  | 0x39 => some .unsignedIntLiteral16
  | 0x3B => some .unsignedIntLiteral32
  | 0x3C => some .unsignedIntLiteral64
  | 0x42 => some .binaryFloatLiteral32
  | 0x43 => some .binaryFloatLiteral64
  | _ => none

/-- The owned recursive expression tree (`src/v0/expr/expr.rs`, `Expr<S>` at
its fixed point `ExprTree`).  Signed integer literals hold an `i64` value,
unsigned ones a `u64`; float literals are represented by their raw IEEE-754
bit patterns (a 32- or 64-bit natural number), which is exactly what the
byte-level codec reads and writes; variables hold a variable-length-enum
identifier. -/
inductive ExprTree where
  | variable : VLEStorage → ExprTree
  | signedIntLiteral : Int → ExprTree
  | unsignedIntLiteral : Nat → ExprTree
  | binaryFloat32Literal : Nat → ExprTree
  | binaryFloat64Literal : Nat → ExprTree
  | trueLiteral : ExprTree
  | falseLiteral : ExprTree
  | addition : ExprTree → ExprTree → ExprTree
  | subtraction : ExprTree → ExprTree → ExprTree
  | multiplication : ExprTree → ExprTree → ExprTree
  | division : ExprTree → ExprTree → ExprTree
  | intDivision : ExprTree → ExprTree → ExprTree
  | modulo : ExprTree → ExprTree → ExprTree
  | power : ExprTree → ExprTree → ExprTree
  | negation : ExprTree → ExprTree
  | root : ExprTree → ExprTree → ExprTree
  | intRoot : ExprTree → ExprTree → ExprTree
  | square : ExprTree → ExprTree
  | cube : ExprTree → ExprTree
  | squareRoot : ExprTree → ExprTree
  | cubeRoot : ExprTree → ExprTree
  | reciprocal : ExprTree → ExprTree
deriving DecidableEq

/-- Big-endian value of a byte list (`uN::from_be_bytes`). -/
def natFromBE (bs : List Nat) : Nat :=
  bs.foldl (fun a b => a * 256 + b % 256) 0

/-- Big-endian encoding of a value into exactly `w` bytes
(`uN::to_be_bytes` / `iN::to_be_bytes` after truncation). -/
def natToBE : Nat → Nat → List Nat
  | 0, _ => []
  | w + 1, v => natToBE w (v / 256) ++ [v % 256]

/-- Two's-complement interpretation of `w` big-endian bytes
(`iN::from_be_bytes` followed by sign extension to `i64`). -/
def intFromBE (w : Nat) (bs : List Nat) : Int :=
  let n := natFromBE bs
  if 2 * n < 2 ^ (8 * w) then (n : Int) else (n : Int) - 2 ^ (8 * w)

/-- Two's-complement big-endian encoding of an integer into `w` bytes
(`iN::to_be_bytes`). -/
def intToBE (w : Nat) (v : Int) : List Nat :=
  natToBE w (v % ((2 ^ (8 * w) : Nat) : Int)).toNat

/-- `ExprObj::token` for `ExprSignedIntLiteral`
(`src/v0/expr/exprs/int_literal.rs` lines 258-267): the narrowest signed
width whose range contains the value, ranges tried from 8 bits upward. -/
def signedIntToken (v : Int) : ExprToken :=
  if -128 ≤ v ∧ v ≤ 127 then .signedIntLiteral8
  else if -32768 ≤ v ∧ v ≤ 32767 then .signedIntLiteral16
  else if -2147483648 ≤ v ∧ v ≤ 2147483647 then .signedIntLiteral32
  else .signedIntLiteral64

/-- `ExprObj::token` for `ExprUnsignedIntLiteral`
(`src/v0/expr/exprs/int_literal.rs` lines 239-248). -/
def unsignedIntToken (v : Nat) : ExprToken :=
  if v ≤ 255 then .unsignedIntLiteral8
  else if v ≤ 65535 then .unsignedIntLiteral16
  else if v ≤ 4294967295 then .unsignedIntLiteral32
  else .unsignedIntLiteral64

/-- Payload of `ExprSignedIntLiteral::try_write_with_decomposer`
(`src/v0/expr/write_to.rs` lines 183-223): the value's big-endian bytes at
the narrowest signed width that contains it, same ranges as the token. -/
def writeSignedPayload (v : Int) : List Nat :=
  if -128 ≤ v ∧ v ≤ 127 then intToBE 1 v
  else if -32768 ≤ v ∧ v ≤ 32767 then intToBE 2 v
  else if -2147483648 ≤ v ∧ v ≤ 2147483647 then intToBE 4 v
  else intToBE 8 v

/-- Payload of `ExprUnsignedIntLiteral::try_write_with_decomposer`
(`src/v0/expr/write_to.rs` lines 133-173). -/
def writeUnsignedPayload (v : Nat) : List Nat :=
  if v ≤ 255 then natToBE 1 v
  else if v ≤ 65535 then natToBE 2 v
  else if v ≤ 4294967295 then natToBE 4 v
  else natToBE 8 v

/-- `Expr::try_write_with_decomposer` specialised to the default `ExprTree`
representation (`src/v0/expr/write_to.rs` lines 259-307 together with
`write_expression_tree`): each node writes its token's discriminant as a
variable-length enum, then its payload — a varint id for variables, the
big-endian literal bytes for numeric literals, nothing for booleans — and
recursively its children, left-hand side first. -/
def writeExprTree : ExprTree → List Nat
  | .variable id => vleWrite (ExprToken.toNat .variable) ++ vleWriteStorage id
  | .signedIntLiteral v => vleWrite (signedIntToken v).toNat ++ writeSignedPayload v
  | .unsignedIntLiteral v => vleWrite (unsignedIntToken v).toNat ++ writeUnsignedPayload v
  | .binaryFloat32Literal bits => vleWrite (ExprToken.toNat .binaryFloatLiteral32) ++ natToBE 4 bits
  | .binaryFloat64Literal bits => vleWrite (ExprToken.toNat .binaryFloatLiteral64) ++ natToBE 8 bits
  | .trueLiteral => vleWrite (ExprToken.toNat .trueLiteral)
  | .falseLiteral => vleWrite (ExprToken.toNat .falseLiteral)
  | .addition l r => vleWrite (ExprToken.toNat .addition) ++ writeExprTree l ++ writeExprTree r
  | .subtraction l r => vleWrite (ExprToken.toNat .subtraction) ++ writeExprTree l ++ writeExprTree r
  | .multiplication l r => vleWrite (ExprToken.toNat .multiplication) ++ writeExprTree l ++ writeExprTree r
  | .division l r => vleWrite (ExprToken.toNat .division) ++ writeExprTree l ++ writeExprTree r
  | .intDivision l r => vleWrite (ExprToken.toNat .intDivision) ++ writeExprTree l ++ writeExprTree r
  | .modulo l r => vleWrite (ExprToken.toNat .modulo) ++ writeExprTree l ++ writeExprTree r
  | .power l r => vleWrite (ExprToken.toNat .power) ++ writeExprTree l ++ writeExprTree r
  | .negation c => vleWrite (ExprToken.toNat .negation) ++ writeExprTree c
  | .root l r => vleWrite (ExprToken.toNat .root) ++ writeExprTree l ++ writeExprTree r
  | .intRoot l r => vleWrite (ExprToken.toNat .intRoot) ++ writeExprTree l ++ writeExprTree r
  | .square c => vleWrite (ExprToken.toNat .square) ++ writeExprTree c
  | .cube c => vleWrite (ExprToken.toNat .cube) ++ writeExprTree c
  | .squareRoot c => vleWrite (ExprToken.toNat .squareRoot) ++ writeExprTree c
  | .cubeRoot c => vleWrite (ExprToken.toNat .cubeRoot) ++ writeExprTree c
  | .reciprocal c => vleWrite (ExprToken.toNat .reciprocal) ++ writeExprTree c

/-- `Read::read_exact` into a `n`-byte buffer: fails when fewer than `n`
bytes remain. -/
def readExactN (n : Nat) (s : List Nat) : Option (List Nat × List Nat) :=
  if n ≤ s.length then some (s.take n, s.drop n) else none

/-- `Expr::try_read_with_composer` specialised to the `ExprTree` composer
(`src/v0/expr/read_from.rs` lines 290-420 with `parse_expression_into_tree`):
read the token identifier as a variable-length enum, fail if it does not fit
a machine integer or is not in the reader's table, then read the node's
payload — literal widths are fixed by the token (`from_be_bytes`), variables
read one varint id, unary nodes one child, binary nodes two children in
order.  `fuel` bounds the recursion depth; each recursive call consumes at
least one byte, so `length + 1` fuel suffices. -/
def parseExprAux : Nat → List Nat → Option (ExprTree × List Nat)
  | 0, _ => none
  | fuel + 1, s =>
    match vleRead s with
    | none => none
    | some (st, r) =>
      match storageToUsize st with
      | none => none
      | some n =>
        match ExprToken.fromNat n with
        | none => none
        | some tok =>
          match tok with
          | .variable =>
            match vleRead r with
            | none => none
            | some (id, r') => some (.variable id, r')
          | .trueLiteral => some (.trueLiteral, r)
          | .falseLiteral => some (.falseLiteral, r)
          | .signedIntLiteral8 =>
            (readExactN 1 r).map fun p => (.signedIntLiteral (intFromBE 1 p.1), p.2)
          | .signedIntLiteral16 =>
            (readExactN 2 r).map fun p => (.signedIntLiteral (intFromBE 2 p.1), p.2)
          | .signedIntLiteral32 =>
            (readExactN 4 r).map fun p => (.signedIntLiteral (intFromBE 4 p.1), p.2)
          | .signedIntLiteral64 =>
            (readExactN 8 r).map fun p => (.signedIntLiteral (intFromBE 8 p.1), p.2)
          | .unsignedIntLiteral8 =>
            (readExactN 1 r).map fun p => (.unsignedIntLiteral (natFromBE p.1), p.2)
          | .unsignedIntLiteral16 =>
            (readExactN 2 r).map fun p => (.unsignedIntLiteral (natFromBE p.1), p.2)
          | .unsignedIntLiteral32 =>
            (readExactN 4 r).map fun p => (.unsignedIntLiteral (natFromBE p.1), p.2)
          | .unsignedIntLiteral64 =>
            (readExactN 8 r).map fun p => (.unsignedIntLiteral (natFromBE p.1), p.2)
          | .binaryFloatLiteral32 =>
            (readExactN 4 r).map fun p => (.binaryFloat32Literal (natFromBE p.1), p.2)
          | .binaryFloatLiteral64 =>
            (readExactN 8 r).map fun p => (.binaryFloat64Literal (natFromBE p.1), p.2)
          | .negation =>
            match parseExprAux fuel r with
            | none => none
            | some (c, r') => some (.negation c, r')
          | .square =>
            match parseExprAux fuel r with
            | none => none
            | some (c, r') => some (.square c, r')
          | .cube =>
            match parseExprAux fuel r with
            | none => none
            | some (c, r') => some (.cube c, r')
          | .squareRoot =>
            match parseExprAux fuel r with
            | none => none
            | some (c, r') => some (.squareRoot c, r')
          | .cubeRoot =>
            match parseExprAux fuel r with
            | none => none
            | some (c, r') => some (.cubeRoot c, r')
          | .reciprocal =>
            match parseExprAux fuel r with
            | none => none
            | some (c, r') => some (.reciprocal c, r')
          | .addition =>
            match parseExprAux fuel r with
            | none => none
            | some (l, r1) =>
              match parseExprAux fuel r1 with
              | none => none
              | some (rr, r2) => some (.addition l rr, r2)
          | .subtraction =>
            match parseExprAux fuel r with
            | none => none
            | some (l, r1) =>
              match parseExprAux fuel r1 with
              | none => none
              | some (rr, r2) => some (.subtraction l rr, r2)
          | .multiplication =>
            match parseExprAux fuel r with
            | none => none
            | some (l, r1) =>
              match parseExprAux fuel r1 with
              | none => none
              | some (rr, r2) => some (.multiplication l rr, r2)
          | .division =>
            match parseExprAux fuel r with
            | none => none
            | some (l, r1) =>
              match parseExprAux fuel r1 with
              | none => none
              | some (rr, r2) => some (.division l rr, r2)
          | .intDivision =>
            match parseExprAux fuel r with
            | none => none
            | some (l, r1) =>
              match parseExprAux fuel r1 with
              | none => none
              | some (rr, r2) => some (.intDivision l rr, r2)
          | .modulo =>
            match parseExprAux fuel r with
            | none => none
            | some (l, r1) =>
              match parseExprAux fuel r1 with
              | none => none
              | some (rr, r2) => some (.modulo l rr, r2)
          | .power =>
            match parseExprAux fuel r with
            | none => none
            | some (l, r1) =>
              match parseExprAux fuel r1 with
              | none => none
              | some (rr, r2) => some (.power l rr, r2)
          | .root =>
            match parseExprAux fuel r with
            | none => none
            | some (l, r1) =>
              match parseExprAux fuel r1 with
              | none => none
              | some (rr, r2) => some (.root l rr, r2)
          | .intRoot =>
            match parseExprAux fuel r with
            | none => none
            | some (l, r1) =>
              match parseExprAux fuel r1 with
              | none => none
              | some (rr, r2) => some (.intRoot l rr, r2)

/-- `parse_expression_into_tree` (`src/v0/parse/expression.rs` lines
146-152): parse one expression from the stream, returning the tree and the
unread remainder.  The configuration parameter of the source is threaded but
never consulted on this path (literal widths come from the token), so it is
omitted here. -/
def parseExpr (s : List Nat) : Option (ExprTree × List Nat) :=
  parseExprAux (s.length + 1) s

/-- C1: the writer emits the `UnsignedIntLiteral64` token using the enum
discriminant `0x3CF` (varint bytes `0x87 0x4F`), while the reader's table
only recognizes `0x3C` for that token, so writing any unsigned integer
literal wider than 32 bits and parsing the produced bytes back fails instead
of round-tripping. -/
theorem c1_roundtrip_unsigned64_code_bug :
    ExprToken.toNat .unsignedIntLiteral64 = 0x3CF ∧
    ExprToken.fromNat 0x3CF = none ∧
    ExprToken.fromNat 0x3C = some .unsignedIntLiteral64 ∧
    writeExprTree (.unsignedIntLiteral 4294967296) =
      [0x87, 0x4F, 0x00, 0x00, 0x00, 0x01, 0x00, 0x00, 0x00, 0x00] ∧
    parseExpr (writeExprTree (.unsignedIntLiteral 4294967296)) = none := by
  refine ⟨rfl, rfl, rfl, ?_, ?_⟩ <;> decide

/-- The quadratic-formula expression tree `(-b + sqrt(b² − 4ac)) / (2a)`
over variables `a = 0`, `b = 1`, `c = 2`, with the integer literals 4 and 2
as signed integer literals. -/
def quadraticTree : ExprTree :=
  .division
    (.addition
      (.negation (.variable (.u64 1)))
      (.squareRoot
        (.subtraction
          (.square (.variable (.u64 1)))
          (.multiplication (.signedIntLiteral 4)
            (.multiplication (.variable (.u64 0)) (.variable (.u64 2)))))))
    (.multiplication (.signedIntLiteral 2) (.variable (.u64 0)))

/-- C2 counterexample: the byte sequence claimed by the specification uses
an obsolete integer-literal token `0x08`, which the current reader does not
recognize, so decoding it fails; and the writer encodes the quadratic tree
to a different (shorter) byte sequence. -/
theorem c2_worked_example_counterexample :
    parseExpr [0x13, 0x10, 0x17, 0x04, 0x01, 0x22, 0x11, 0x20, 0x04, 0x01,
      0x12, 0x08, 0x00, 0x00, 0x00, 0x00, 0x00, 0x00, 0x00, 0x04,
      0x12, 0x04, 0x00, 0x04, 0x02,
      0x12, 0x08, 0x00, 0x00, 0x00, 0x00, 0x00, 0x00, 0x00, 0x02, 0x04, 0x00] = none ∧
    writeExprTree quadraticTree ≠
      [0x13, 0x10, 0x17, 0x04, 0x01, 0x22, 0x11, 0x20, 0x04, 0x01,
        0x12, 0x08, 0x00, 0x00, 0x00, 0x00, 0x00, 0x00, 0x00, 0x04,
        0x12, 0x04, 0x00, 0x04, 0x02,
        0x12, 0x08, 0x00, 0x00, 0x00, 0x00, 0x00, 0x00, 0x00, 0x02, 0x04, 0x00] := by
  constructor <;> decide

/-- C2 amended: with the current grammar the integer literals 4 and 2 are
written as 8-bit signed literals (token `0x30`, one payload byte), so the
quadratic-formula tree encodes to the 23-byte sequence below, and decoding
that sequence reproduces exactly the same tree with the whole input
consumed. -/
theorem c2_worked_example_amended :
    writeExprTree quadraticTree =
      [0x13, 0x10, 0x17, 0x04, 0x01, 0x22, 0x11, 0x20, 0x04, 0x01,
        0x12, 0x30, 0x04, 0x12, 0x04, 0x00, 0x04, 0x02,
        0x12, 0x30, 0x02, 0x04, 0x00] ∧
    parseExpr [0x13, 0x10, 0x17, 0x04, 0x01, 0x22, 0x11, 0x20, 0x04, 0x01,
        0x12, 0x30, 0x04, 0x12, 0x04, 0x00, 0x04, 0x02,
        0x12, 0x30, 0x02, 0x04, 0x00] = some (quadraticTree, []) := by
  constructor <;> decide

/-- The `Integer Format` configuration option
(`src/v0/config/configurations.rs`, `IntFormat`). -/
inductive IntFormat where
  | i8
  | i16
  | i32
  | i64
  | u8
  | u16
  | u32
  | u64
deriving DecidableEq

/-- Wire codes of `IntFormat` (its enum discriminants). -/
def IntFormat.code : IntFormat → Nat
  | .i8 => 0x00
  | .i16 => 0x01
  | .i32 => 0x02
  | .i64 => 0x03
  | .u8 => 0x10
  | .u16 => 0x11
  | .u32 => 0x12
  | .u64 => 0x13

/-- Identifier table of `TryFrom<VariableLengthEnum> for IntFormat`
(machine-width part). -/
def IntFormat.fromNat : Nat → Option IntFormat
  | 0x00 => some .i8
  | 0x01 => some .i16
  | 0x02 => some .i32
  | 0x03 => some .i64
  | 0x10 => some .u8
  | 0x11 => some .u16
  | 0x12 => some .u32
  | 0x13 => some .u64
  | _ => none

/-- The `Float Format` configuration option
(`src/v0/config/configurations.rs`, `FloatFormat`). -/
inductive FloatFormat where
  | f32
  | f64
deriving DecidableEq

/-- Wire codes of `FloatFormat`. -/
def FloatFormat.code : FloatFormat → Nat
  | .f32 => 0x01
  | .f64 => 0x02

/-- Identifier table of `TryFrom<VariableLengthEnum> for FloatFormat`. -/
def FloatFormat.fromNat : Nat → Option FloatFormat
  | 0x01 => some .f32
  | 0x02 => some .f64
  | _ => none

/-- `TryFrom<VariableLengthEnum> for IntFormat`: a value that does not fit
the machine width is `IdentifierTooLarge`; a fitting but unknown code is
`IdentifierNotRecognized`; both are errors. -/
def intFormatFromStorage (st : VLEStorage) : Option IntFormat :=
  (storageToUsize st).bind IntFormat.fromNat

/-- `TryFrom<VariableLengthEnum> for FloatFormat`. -/
def floatFormatFromStorage (st : VLEStorage) : Option FloatFormat :=
  (storageToUsize st).bind FloatFormat.fromNat

/-- Configuration key identifiers (`src/v0/tokens/config.rs`,
`ConfigToken`): `FloatFormat = 0x00`, `IntFormat = 0x01`. -/
inductive ConfigToken where
  | floatFormat
  | intFormat
deriving DecidableEq

/-- `TryFrom<usize> for ConfigToken`. -/
def ConfigToken.fromNat : Nat → Option ConfigToken
  | 0x00 => some .floatFormat
  | 0x01 => some .intFormat
  | _ => none

/-- `ReadConfigurationOutput` (`src/v0/config/read_configuration.rs` lines
15-18): the decoded configuration section, one optional value per known
key. -/
structure ReadConfigOutput where
  integerFormat : Option IntFormat
  floatFormat : Option FloatFormat
deriving DecidableEq

/-- `skip_bytes` (`src/common/stream_utils.rs` lines 3-12): reads exactly
`count` bytes one at a time via `read_exact`, so it fails when the stream
ends before `count` bytes were consumed. -/
def skipBytes (count : Nat) (s : List Nat) : Option (List Nat) :=
  if count ≤ s.length then some (s.drop count) else none

/-- `skip_non_enum_configuration` (`src/v0/config/read_configuration.rs`
lines 140-146): read one varint byte length, then skip exactly that many
bytes. -/
def skipNonEnumConfiguration (s : List Nat) : Option (List Nat) :=
  match vleRead s with
  | none => none
  | some (st, r) =>
    match storageToUsize st with
    | none => none
    | some len => skipBytes len r

/-- `read_one_config` (`src/v0/config/read_configuration.rs` lines
148-203): read the key identifier varint; if it cannot be cast to machine
width, skip a length-prefixed unknown value; if it is a known key, read one
varint value and store it; if it is unknown and at most `0x7F`, read and
discard exactly one further varint; otherwise skip a length-prefixed
unknown value. -/
def readOneConfig (s : List Nat) (out : ReadConfigOutput) :
    Option (ReadConfigOutput × List Nat) :=
  match vleRead s with
  | none => none
  | some (st, r) =>
    match storageToUsize st with
    | none => (skipNonEnumConfiguration r).map fun r' => (out, r')
    | some n =>
      match ConfigToken.fromNat n with
      | some .intFormat =>
        match vleRead r with
        | none => none
        | some (v, r2) =>
          match intFormatFromStorage v with
          | none => none
          | some f => some ({ out with integerFormat := some f }, r2)
      | some .floatFormat =>
        match vleRead r with
        | none => none
        | some (v, r2) =>
          match floatFormatFromStorage v with
          | none => none
          | some f => some ({ out with floatFormat := some f }, r2)
      | none =>
        if n ≤ 0x7F then (vleRead r).map fun p => (out, p.2)
        else (skipNonEnumConfiguration r).map fun r' => (out, r')

/-- The `while remaining > 0` loop of `ReadConfigurationOutput::read_from`
(`src/v0/config/read_configuration.rs` lines 109-116). -/
def readConfigLoop : Nat → List Nat → ReadConfigOutput → Option (ReadConfigOutput × List Nat)
  | 0, s, out => some (out, s)
  | n + 1, s, out =>
    match readOneConfig s out with
    | none => none
    | some (out', s') => readConfigLoop n s' out'

/-- `ReadConfigurationOutput::read_from` (`src/v0/config/read_configuration.rs`
lines 103-120): read the pair count as a varint, then that many
(key, value) pairs starting from an empty output. -/
def readConfigurationOutput (s : List Nat) : Option (ReadConfigOutput × List Nat) :=
  match vleRead s with
  | none => none
  | some (st, r) =>
    match storageToUsize st with
    | none => none
    | some cnt => readConfigLoop cnt r ⟨none, none⟩

theorem configTokenFromNat_of_gt (n : Nat) (h : 0x7F < n) : ConfigToken.fromNat n = none := by
  match n, h with
  | m + 128, _ => rfl

/-- C6: the decoder applies exactly the three-way rule to every
(key identifier, value) pair: an identifier that cannot be cast to machine
width is followed by a length-prefixed skip; a fitting identifier at most
`0x7F` that is not a known key is followed by reading and discarding exactly
one further varint; a fitting identifier above `0x7F` (necessarily
unrecognized) is followed by a length-prefixed skip.  In each case decoding
continues with the output configuration unchanged and the cursor exactly
after the skipped value. -/
theorem c6_config_skip_rule :
    (∀ (s : List Nat) (out : ReadConfigOutput) (bs r : List Nat),
      vleRead s = some (.overflow bs, r) →
      readOneConfig s out = (skipNonEnumConfiguration r).map fun r' => (out, r')) ∧
    (∀ (s : List Nat) (out : ReadConfigOutput) (n : Nat) (r : List Nat),
      vleRead s = some (.u64 n, r) → n ≤ 0x7F → ConfigToken.fromNat n = none →
      readOneConfig s out = (vleRead r).map fun p => (out, p.2)) ∧
    (∀ (s : List Nat) (out : ReadConfigOutput) (n : Nat) (r : List Nat),
      vleRead s = some (.u64 n, r) → 0x7F < n →
      readOneConfig s out = (skipNonEnumConfiguration r).map fun r' => (out, r')) := by
  refine ⟨?_, ?_, ?_⟩
  · intro s out bs r hv
    simp [readOneConfig, hv, storageToUsize]
  · intro s out n r hv hle hun
    simp [readOneConfig, hv, storageToUsize, hun, hle]
  · intro s out n r hv hgt
    have hun := configTokenFromNat_of_gt n hgt
    have hle : ¬n ≤ 0x7F := by omega
    simp [readOneConfig, hv, storageToUsize, hun, hle]

theorem c6_config_skip_rule_witness :
    readOneConfig [0xFF, 0xFF, 0xFF, 0xFF, 0xFF, 0xFF, 0xFF, 0xFF, 0xFF, 0xFF, 0x7F,
      0x01, 0xAA] ⟨none, none⟩ = some (⟨none, none⟩, []) ∧
    readOneConfig [0x05, 0x2A] ⟨none, none⟩ = some (⟨none, none⟩, []) ∧
    readOneConfig [0x82, 0x00, 0x02, 0xAA, 0xBB] ⟨none, none⟩ = some (⟨none, none⟩, []) := by
  refine ⟨?_, ?_, ?_⟩
  · have h := c6_config_skip_rule.1
      [0xFF, 0xFF, 0xFF, 0xFF, 0xFF, 0xFF, 0xFF, 0xFF, 0xFF, 0xFF, 0x7F, 0x01, 0xAA]
      ⟨none, none⟩ [0xFF, 0xFF, 0xFF, 0xFF, 0xFF, 0xFF, 0xFF, 0xFF, 0xFF, 0xFF, 0x7F]
      [0x01, 0xAA] (by decide)
    rw [h]
    decide
  · have h := c6_config_skip_rule.2.1 [0x05, 0x2A] ⟨none, none⟩ 0x05 [0x2A]
      (by decide) (by decide) rfl
    rw [h]
    decide
  · have h := c6_config_skip_rule.2.2 [0x82, 0x00, 0x02, 0xAA, 0xBB] ⟨none, none⟩
      0x100 [0x02, 0xAA, 0xBB] (by decide) (by decide)
    rw [h]
    decide

/-- C10: a configuration section that repeats the same recognized key
decodes without error and keeps the value of the LAST occurrence: for any
two integer-format codes, the section
`[count = 2, int-format key, code₁, int-format key, code₂]` decodes to a
configuration whose integer format is the second value, with the float
format untouched and the whole section consumed. -/
theorem c10_duplicate_key_last_wins (f1 f2 : IntFormat) :
    readConfigurationOutput [0x02, 0x01, f1.code, 0x01, f2.code] =
      some (⟨some f2, none⟩, []) := by
  cases f1 <;> cases f2 <;> decide

/-- Metadata records (`src/v0/metadata/record.rs`, `MetadataRecord` and the
record object types).  Strings are modelled as their raw UTF-8 byte lists
(the `String::from_utf8` validation step of the source is not modelled; no
claim depends on it).  Reserved records carry their `u32` identifier and raw
payload; unknown records carry the full variable-length identifier and raw
payload. -/
inductive MetadataRecord where
  | name : List Nat → MetadataRecord
  | variableName : List Nat → VLEStorage → MetadataRecord
  | reservedOfficial : Nat → List Nat → MetadataRecord
  | reservedThirdParty : Nat → List Nat → MetadataRecord
  | reservedCustom : Nat → List Nat → MetadataRecord
  | unknown : VLEStorage → List Nat → MetadataRecord
deriving DecidableEq

/-- `String::read_from` (`src/v0/raw/string.rs`): read a varint length, then
`take(length).read_to_end`, which returns at most `length` bytes and does
not fail when the stream ends early.  The result is the consumed cursor in
both the success and the error case. -/
def readStringT (s : List Nat) : Option (List Nat) × List Nat :=
  match vleRead s with
  | none => (none, [])
  | some (st, r) =>
    match storageToUsize st with
    | none => (none, r)
    | some len => (some (r.take len), r.drop len)

/-- Payload part of `UnknownMetadataRecordObj::read_from`
(`src/v0/metadata/records/unknown.rs` lines 39-50) and of the three reserved
record readers: read a declared varint byte length, then
`take(length).read_to_end`, which silently returns fewer bytes when the
stream ends before `length` bytes. -/
def readRawPayloadT (s : List Nat) : Option (List Nat) × List Nat :=
  match vleRead s with
  | none => (none, [])
  | some (st, r) =>
    match storageToUsize st with
    | none => (none, r)
    | some len => (some (r.take len), r.drop len)

/-- `NameMetadataRecordObj::read_from` (`src/v0/metadata/records/name.rs`):
read the record byte length, restrict to that many bytes (`reader.take`),
read the string inside that window, then drain the rest of the window.  The
cursor lands after the whole window on success, or after the bytes the
failed string read consumed. -/
def readNameRecordT (s : List Nat) : Option MetadataRecord × List Nat :=
  match vleRead s with
  | none => (none, [])
  | some (st, r) =>
    match storageToUsize st with
    | none => (none, r)
    | some fullLen =>
      match readStringT (r.take fullLen) with
      | (some strBytes, _) => (some (.name strBytes), r.drop (r.take fullLen).length)
      | (none, innerRem) => (none, r.drop ((r.take fullLen).length - innerRem.length))

/-- `VariableNameMetadataRecordObj::read_from`
(`src/v0/metadata/records/variable_name.rs`): like the name record but with
a varint variable identifier before the string inside the window. -/
def readVariableNameRecordT (s : List Nat) : Option MetadataRecord × List Nat :=
  match vleRead s with
  | none => (none, [])
  | some (st, r) =>
    match storageToUsize st with
    | none => (none, r)
    | some fullLen =>
      match vleRead (r.take fullLen) with
      | none => (none, r.drop (r.take fullLen).length)
      | some (id, ir) =>
        match readStringT ir with
        | (some strBytes, _) =>
          (some (.variableName strBytes id), r.drop (r.take fullLen).length)
        | (none, irem) =>
          (none, r.drop ((r.take fullLen).length - irem.length))

/-- `MetadataRecord::read_from` (`src/v0/metadata/record.rs` lines 80-119)
with the key classification of `MetadataToken::try_from`
(`src/v0/tokens/metadata.rs`): identifier `0x01` is a name record, `0x02` a
variable-name record; other identifiers below `0x40000` are
official-reserved, below `0x100000` third-party-reserved, below `0x200000`
custom-reserved; a fitting identifier of `0x200000` or more is an unknown
record; an identifier that does not fit the machine width is a hard error. -/
def readMetadataRecordT (s : List Nat) : Option MetadataRecord × List Nat :=
  match vleRead s with
  | none => (none, [])
  | some (st, r) =>
    match storageToUsize st with
    | none => (none, r)
    | some n =>
      if n = 0x01 then readNameRecordT r
      else if n = 0x02 then readVariableNameRecordT r
      else if n < 0x40000 then
        match readRawPayloadT r with
        | (some d, r') => (some (.reservedOfficial n d), r')
        | (none, r') => (none, r')
      else if n < 0x100000 then
        match readRawPayloadT r with
        | (some d, r') => (some (.reservedThirdParty n d), r')
        | (none, r') => (none, r')
      else if n < 0x200000 then
        match readRawPayloadT r with
        | (some d, r') => (some (.reservedCustom n d), r')
        | (none, r') => (none, r')
      else
        match readRawPayloadT r with
        | (some d, r') => (some (.unknown st d), r')
        | (none, r') => (none, r')

/-- `MetadataHeader` (`src/v0/metadata/header.rs`): record count and total
byte size of the record area that follows the header. -/
structure MetadataHeader where
  recordCount : Nat
  byteSize : Nat
deriving DecidableEq

/-- `MetadataHeader::read_from` (`src/v0/metadata/header.rs` lines 72-97):
read the record count; a count of zero ends the header with byte size zero,
otherwise read the total byte size. -/
def readMetadataHeader (s : List Nat) : Option (MetadataHeader × List Nat) :=
  match vleRead s with
  | none => none
  | some (st, r) =>
    match storageToUsize st with
    | none => none
    | some cnt =>
      if cnt = 0 then some (⟨0, 0⟩, r)
      else
        match vleRead r with
        | none => none
        | some (st2, r2) =>
          match storageToUsize st2 with
          | none => none
          | some bsize => some (⟨cnt, bsize⟩, r2)

/-- State of `MetadataIterator` (`src/v0/parse/metadata.rs` lines 95-114):
the unread part of the `take(byte_size)` window over the underlying reader,
and the number of records still to be yielded. -/
structure MetadataIterState where
  buf : List Nat
  recordsRemaining : Nat
deriving DecidableEq

/-- One `next()` call of `MetadataIterator`: yields nothing once
`records_remaining` is zero; otherwise decrements it and reads one record
from the limited window, whether or not that read succeeds. -/
def metadataIterNext (st : MetadataIterState) : MetadataIterState :=
  if st.recordsRemaining = 0 then st
  else ⟨(readMetadataRecordT st.buf).2, st.recordsRemaining - 1⟩

/-- An arbitrary consumption pattern: the caller calls `next()` exactly `k`
times before dropping the iterator (full iteration, stopping early, and
continuing after a failed record read are all instances). -/
def metadataIterSteps : Nat → MetadataIterState → MetadataIterState
  | 0, st => st
  | k + 1, st => metadataIterSteps k (metadataIterNext st)

/-- Whole lifecycle of `parse_metadata`'s iterator
(`src/v0/parse/metadata.rs`): read the header, restrict the underlying
reader to `byte_size` bytes (`reader.take`), let the caller consume records
with `k` calls to `next()`, then drop the iterator, whose `Drop`
implementation drains the rest of the window (`read_to_end`).  The result is
the remainder of the UNDERLYING stream: everything after the bytes consumed
through the window by record reads plus the bytes consumed by the final
drain. -/
def metadataSectionRest (s : List Nat) (k : Nat) : Option (List Nat) :=
  match readMetadataHeader s with
  | none => none
  | some (hdr, s1) =>
    let limited := s1.take hdr.byteSize
    let final := metadataIterSteps k ⟨limited, hdr.recordCount⟩
    some (s1.drop ((limited.length - final.buf.length) + final.buf.length))

theorem vleReadAux_length_le (s : List Nat) :
    ∀ (bv : List Nat) (acc : Option Nat) (p : List Nat × Option Nat) (r : List Nat),
      vleReadAux s bv acc = some (p, r) → r.length ≤ s.length := by
  induction s with
  | nil =>
    intro bv acc p r h
    simp [vleReadAux] at h
  | cons b rest ih =>
    intro bv acc p r h
    simp only [vleReadAux] at h
    split at h
    · exact le_trans (ih _ _ _ _ h) (by simp)
    · split at h
      · simp only [Option.some.injEq, Prod.mk.injEq] at h
        obtain ⟨-, h2⟩ := h
        subst h2
        simp
      · exact le_trans (ih _ _ _ _ h) (by simp)

theorem vleRead_length_le (s : List Nat) (v : VLEStorage) (r : List Nat)
    (h : vleRead s = some (v, r)) : r.length ≤ s.length := by
  unfold vleRead at h
  rcases ha : vleReadAux s [] (some 0) with _ | ⟨⟨bv, acc⟩, r'⟩
  · rw [ha] at h
    exact absurd h (by simp)
  · rw [ha] at h
    have := vleReadAux_length_le s [] (some 0) (bv, acc) r' ha
    cases acc <;> simp_all

theorem readStringT_length_le (s : List Nat) : (readStringT s).2.length ≤ s.length := by
  unfold readStringT
  rcases hv : vleRead s with _ | ⟨st, r⟩
  · simp
  · have hr := vleRead_length_le s st r hv
    cases st with
    | u64 n =>
      simp only [storageToUsize, List.length_drop]
      omega
    | overflow bs => simpa [storageToUsize] using hr

theorem readRawPayloadT_length_le (s : List Nat) : (readRawPayloadT s).2.length ≤ s.length := by
  unfold readRawPayloadT
  rcases hv : vleRead s with _ | ⟨st, r⟩
  · simp
  · have hr := vleRead_length_le s st r hv
    cases st with
    | u64 n =>
      simp only [storageToUsize, List.length_drop]
      omega
    | overflow bs => simpa [storageToUsize] using hr

theorem readNameRecordT_length_le (s : List Nat) :
    (readNameRecordT s).2.length ≤ s.length := by
  unfold readNameRecordT
  rcases hv : vleRead s with _ | ⟨st, r⟩
  · simp
  · have hr := vleRead_length_le s st r hv
    cases st with
    | u64 n =>
      simp only [storageToUsize]
      rcases hs : readStringT (r.take n) with ⟨os, innerRem⟩
      rcases os with _ | strBytes <;>
        · simp only [hs, List.length_drop]
          omega
    | overflow bs => simpa [storageToUsize] using hr

theorem readVariableNameRecordT_length_le (s : List Nat) :
    (readVariableNameRecordT s).2.length ≤ s.length := by
  unfold readVariableNameRecordT
  rcases hv : vleRead s with _ | ⟨st, r⟩
  · simp
  · have hr := vleRead_length_le s st r hv
    cases st with
    | u64 n =>
      simp only [storageToUsize]
      rcases hi : vleRead (r.take n) with _ | ⟨id, ir⟩
      · simp only [hi, List.length_drop]
        omega
      · rcases hs : readStringT ir with ⟨os, irem⟩
        rcases os with _ | strBytes <;>
          · simp only [hi, hs, List.length_drop]
            omega
    | overflow bs => simpa [storageToUsize] using hr

theorem readMetadataRecordT_length_le (s : List Nat) :
    (readMetadataRecordT s).2.length ≤ s.length := by
  unfold readMetadataRecordT
  rcases hv : vleRead s with _ | ⟨st, r⟩
  · simp
  · have hr := vleRead_length_le s st r hv
    cases st with
    | u64 n =>
      simp only [storageToUsize]
      split
      · exact le_trans (readNameRecordT_length_le r) hr
      · split
        · exact le_trans (readVariableNameRecordT_length_le r) hr
        · have hp := readRawPayloadT_length_le r
          split
          · rcases hraw : readRawPayloadT r with ⟨_ | d, r'⟩ <;>
              simp_all <;> omega
          · split
            · rcases hraw : readRawPayloadT r with ⟨_ | d, r'⟩ <;>
                simp_all <;> omega
            · split
              · rcases hraw : readRawPayloadT r with ⟨_ | d, r'⟩ <;>
                  simp_all <;> omega
              · rcases hraw : readRawPayloadT r with ⟨_ | d, r'⟩ <;>
                  simp_all <;> omega
    | overflow bs => simpa [storageToUsize] using hr

theorem metadataIterNext_buf_le (st : MetadataIterState) :
    (metadataIterNext st).buf.length ≤ st.buf.length := by
  unfold metadataIterNext
  split
  · exact le_refl _
  · exact readMetadataRecordT_length_le st.buf

theorem metadataIterSteps_buf_le (k : Nat) (st : MetadataIterState) :
    (metadataIterSteps k st).buf.length ≤ st.buf.length := by
  induction k generalizing st with
  | zero => exact le_refl _
  | succ k ih => exact le_trans (ih (metadataIterNext st)) (metadataIterNext_buf_le st)

/-- C3: for every metadata section and every consumption pattern (any
number `k` of `next()` calls — full iteration, early abandonment, or
continuing past a failed record read), once the iterator is dropped exactly
`byte_size` bytes have been consumed from the underlying stream after the
header, provided the stream holds that many: the cursor lands exactly at the
section's declared end.  Record reads go through the `take(byte_size)`
window, so no record read consumes bytes past that boundary. -/
theorem c3_metadata_drain (s : List Nat) (k : Nat) (hdr : MetadataHeader)
    (s1 : List Nat) (hh : readMetadataHeader s = some (hdr, s1))
    (hlen : hdr.byteSize ≤ s1.length) :
    metadataSectionRest s k = some (s1.drop hdr.byteSize) := by
  have hlim : (s1.take hdr.byteSize).length = hdr.byteSize := by
    simp only [List.length_take]
    omega
  have hb : (metadataIterSteps k ⟨s1.take hdr.byteSize, hdr.recordCount⟩).buf.length ≤
      (s1.take hdr.byteSize).length := by
    simpa using metadataIterSteps_buf_le k ⟨s1.take hdr.byteSize, hdr.recordCount⟩
  have harith : (s1.take hdr.byteSize).length -
      (metadataIterSteps k ⟨s1.take hdr.byteSize, hdr.recordCount⟩).buf.length +
      (metadataIterSteps k ⟨s1.take hdr.byteSize, hdr.recordCount⟩).buf.length =
      hdr.byteSize := by
    omega
  simp only [metadataSectionRest, hh, harith]

theorem c3_metadata_drain_witness :
    metadataSectionRest [0x02, 0x13, 0x01, 0x08, 0x07, 70, 111, 114, 109, 117, 108, 97,
      0x02, 0x03, 0x01, 0x01, 120, 0x00, 0x00, 0x00, 0x00] 1 = some [] := by
  have h := c3_metadata_drain
    [0x02, 0x13, 0x01, 0x08, 0x07, 70, 111, 114, 109, 117, 108, 97,
      0x02, 0x03, 0x01, 0x01, 120, 0x00, 0x00, 0x00, 0x00] 1 ⟨2, 19⟩
    [0x01, 0x08, 0x07, 70, 111, 114, 109, 117, 108, 97,
      0x02, 0x03, 0x01, 0x01, 120, 0x00, 0x00, 0x00, 0x00]
    (by decide) (by decide)
  simpa using h

/-- `MetadataRecord::byte_length` (`src/v0/metadata/record.rs` lines
205-214 with the per-record implementations): the name record reports its
string bytes plus the string-length varint
(`src/v0/metadata/records/name.rs` lines 47-55), the variable-name record
additionally the variable-identifier varint; reserved and unknown records
report their raw payload length.  Note this never includes the record's own
key-identifier varint or its byte-length-prefix varint. -/
def metadataRecordByteLength : MetadataRecord → Nat
  | .name str => str.length + minByteLenOfNat str.length
  | .variableName str id =>
    str.length + minByteLenOfNat str.length + storageMinByteLength id
  | .reservedOfficial _ d => d.length
  | .reservedThirdParty _ d => d.length
  | .reservedCustom _ d => d.length
  | .unknown _ d => d.length

/-- `MetadataRecord::write_to` (`src/v0/metadata/record.rs` lines 136-204
with the per-record `WriteTo` implementations): the key-identifier varint,
then the record's byte-length varint, then its payload (for the name record
the string-length varint and string bytes; for the variable-name record the
variable-identifier varint first; for reserved and unknown records the raw
payload). -/
def writeMetadataRecord : MetadataRecord → List Nat
  | .name str =>
    vleWrite 0x01 ++ vleWrite (metadataRecordByteLength (.name str)) ++
      vleWrite str.length ++ str
  | .variableName str id =>
    vleWrite 0x02 ++ vleWrite (metadataRecordByteLength (.variableName str id)) ++
      vleWriteStorage id ++ vleWrite str.length ++ str
  | .reservedOfficial i d => vleWrite i ++ vleWrite d.length ++ d
  | .reservedThirdParty i d => vleWrite i ++ vleWrite d.length ++ d
  | .reservedCustom i d => vleWrite i ++ vleWrite d.length ++ d
  | .unknown id d => vleWriteStorage id ++ vleWrite d.length ++ d

/-- `MetadataHeader::write_to` (`src/v0/metadata/header.rs` lines 99-155):
the record-count varint, then — only when the count is nonzero — the
total-byte-size varint. -/
def writeMetadataHeader (recordCount byteSize : Nat) : List Nat :=
  vleWrite recordCount ++ (if recordCount = 0 then [] else vleWrite byteSize)

/-- `write_metadata_from_vec` (`src/v0/write/metadata.rs` lines 83-103 via
`write_metadata`): writes the header with `record_count = records.len()` and
`byte_size = records.iter().map(MetadataRecord::byte_length).sum()`, then
every record's full encoding. -/
def writeMetadataFromVec (records : List MetadataRecord) : List Nat :=
  writeMetadataHeader records.length
    (records.map metadataRecordByteLength).sum ++
    (records.map writeMetadataRecord).flatten

/-- The `for record in parse_metadata(...)` collection loop of
`parse_metadata_as_vec`: reads the declared number of records from the
limited window, propagating the first record error. -/
def readRecordsLoop : Nat → List Nat → Option (List MetadataRecord × List Nat)
  | 0, buf => some ([], buf)
  | n + 1, buf =>
    match readMetadataRecordT buf with
    | (some record, buf') =>
      match readRecordsLoop n buf' with
      | none => none
      | some (rs, b) => some (record :: rs, b)
    | (none, _) => none

/-- `parse_metadata_as_vec` (`src/v0/parse/metadata.rs` lines 167-177):
read the header, read `record_count` records through the `take(byte_size)`
window, then drop the iterator, draining the rest of the window; on success
the result is the records together with the remainder of the underlying
stream after the declared section end. -/
def parseMetadataAsVec (s : List Nat) : Option (List MetadataRecord × List Nat) :=
  match readMetadataHeader s with
  | none => none
  | some (hdr, s1) =>
    let limited := s1.take hdr.byteSize
    match readRecordsLoop hdr.recordCount limited with
    | none => none
    | some (rs, finalBuf) =>
      some (rs, s1.drop ((limited.length - finalBuf.length) + finalBuf.length))

/-- C7: the total-byte-size field written by `write_metadata_from_vec` does
NOT cover the records' full encodings: for the two-record list
`[Name "Formula", VariableName "x" (variable 1)]` the writer emits a header
declaring 11 bytes (`0x0B`, the sum of the records' payload
`byte_length`s), while the record encodings that follow the header occupy
15 bytes (each record is also preceded by its key-identifier varint and its
byte-length-prefix varint); reading the freshly written section back
therefore fails inside the second record. -/
theorem c7_total_byte_size_code_bug :
    writeMetadataFromVec
      [.name [70, 111, 114, 109, 117, 108, 97], .variableName [120] (.u64 1)] =
      [0x02, 0x0B,
        0x01, 0x08, 0x07, 70, 111, 114, 109, 117, 108, 97,
        0x02, 0x03, 0x01, 0x01, 120] ∧
    (writeMetadataRecord (.name [70, 111, 114, 109, 117, 108, 97])).length +
      (writeMetadataRecord (.variableName [120] (.u64 1))).length = 15 ∧
    (metadataRecordByteLength (.name [70, 111, 114, 109, 117, 108, 97]) +
      metadataRecordByteLength (.variableName [120] (.u64 1))) = 11 ∧
    parseMetadataAsVec (writeMetadataFromVec
      [.name [70, 111, 114, 109, 117, 108, 97], .variableName [120] (.u64 1)]) =
      none := by
  refine ⟨?_, ?_, ?_, ?_⟩ <;> decide

/-- C8: decoding a metadata record with an unrecognized key (identifier
`0x200000`, varint `0x81 0x80 0x80 0x00`) whose declared byte length 5
exceeds the 2 bytes remaining in the stream does NOT return a stream error:
`take(length).read_to_end` silently stops at end of input and the decoder
returns a successfully decoded unknown record with the shortened 2-byte
payload, the stream fully consumed. -/
theorem c8_truncated_unknown_record_code_bug :
    readMetadataRecordT [0x81, 0x80, 0x80, 0x00, 0x05, 0xAA, 0xBB] =
      (some (.unknown (.u64 0x200000) [0xAA, 0xBB]), []) := by
  decide

/-- Observable content of the `Config` trait (`src/v0/config/traits.rs`):
the chosen integer and float formats.  Every configuration object passed
around by the file-envelope code is consulted only through these two
methods. -/
structure CfgView where
  integerFormat : IntFormat
  floatFormat : FloatFormat
deriving DecidableEq

/-- `OverridableConfig` (`src/v0/config/overridable_config.rs` lines
29-33): per option, `none` means "not explicitly set". -/
structure OverridableConfig where
  integerFormat : Option IntFormat
  floatFormat : Option FloatFormat
deriving DecidableEq

/-- `OverridableConfig::override_with` (`src/v0/config/overridable_config.rs`
lines 274-281): options set in `other` override; options not set in `other`
keep their value in `self`. -/
def overrideWith (c other : OverridableConfig) : OverridableConfig :=
  { integerFormat :=
      match other.integerFormat with
      | some f => some f
      | none => c.integerFormat,
    floatFormat :=
      match other.floatFormat with
      | some f => some f
      | none => c.floatFormat }

/-- `OverridableConfig::from_config_full_override`
(`src/v0/config/overridable_config.rs` lines 283-288): every option of the
given configuration is recorded as explicitly set. -/
def fromConfigFullOverride (c : CfgView) : OverridableConfig :=
  ⟨some c.integerFormat, some c.floatFormat⟩

/-- `Config` view of an `OverridableConfig`
(`src/v0/config/overridable_config.rs` lines 37-73): `unwrap_or_default`,
with defaults `I64` and `F64` (`src/v0/config/configurations.rs`). -/
def OverridableConfig.view (c : OverridableConfig) : CfgView :=
  ⟨c.integerFormat.getD .i64, c.floatFormat.getD .f64⟩

/-- Modelled from the spec: `parse_configuration` targets
`OverridableConfig`'s `ReadFrom` implementation, which is not among the
provided sources; per the spec it decodes the configuration section exactly
as `ReadConfigurationOutput::read_from` does and records each decoded option
as explicitly set. -/
def parseConfiguration (s : List Nat) : Option (OverridableConfig × List Nat) :=
  match readConfigurationOutput s with
  | none => none
  | some (out, r) => some (⟨out.integerFormat, out.floatFormat⟩, r)

/-- `parse_metadata_as_vec` with the configuration parameter of its source
signature; the configuration is threaded to the record readers but never
consulted by any of them. -/
def parseMetadataAsVecCfg (_configuration : CfgView) (s : List Nat) :
    Option (List MetadataRecord × List Nat) :=
  parseMetadataAsVec s

/-- `parse_expression_into_tree` with the configuration parameter of its
source signature; the configuration is threaded through the expression
readers but never consulted (literal widths come from the token). -/
def parseExprCfg (_configuration : CfgView) (s : List Nat) :
    Option (ExprTree × List Nat) :=
  parseExpr s

/-- `SingleFormulaFile` (`src/v0/file/single_formula.rs`): the decoded
configuration section, metadata records, and expression tree. -/
structure SingleFormulaFile where
  configuration : OverridableConfig
  metadata : List MetadataRecord
  expression : ExprTree
deriving DecidableEq

/-- `SingleFormulaFile::read_from` (`src/v0/file/read_from.rs` lines
16-43): build a full override of the ambient configuration, parse the
file's configuration section, merge it over the ambient one
(`config.override_with(&file_config)`), then parse the metadata section —
the source passes the ambient `configuration` object here — and finally the
expression section with the merged configuration. -/
def singleFormulaReadFrom (ambient : CfgView) (s : List Nat) :
    Option (SingleFormulaFile × List Nat) :=
  match parseConfiguration s with
  | none => none
  | some (fileConfig, s1) =>
    let merged := overrideWith (fromConfigFullOverride ambient) fileConfig
    match parseMetadataAsVecCfg ambient s1 with
    | none => none
    | some (metadata, s2) =>
      match parseExprCfg merged.view s2 with
      | none => none
      | some (tree, s3) => some (⟨fileConfig, metadata, tree⟩, s3)

/-- The claim's description of `SingleFormulaFile::read_from`, for
comparison: the configuration decoded from the file is merged over the
caller's ambient configuration, and that merged configuration is the one
used to decode BOTH the metadata section and the expression section. -/
def singleFormulaReadFromSpec (ambient : CfgView) (s : List Nat) :
    Option (SingleFormulaFile × List Nat) :=
  match parseConfiguration s with
  | none => none
  | some (fileConfig, s1) =>
    let merged := overrideWith (fromConfigFullOverride ambient) fileConfig
    match parseMetadataAsVecCfg merged.view s1 with
    | none => none
    | some (metadata, s2) =>
      match parseExprCfg merged.view s2 with
      | none => none
      | some (tree, s3) => some (⟨fileConfig, metadata, tree⟩, s3)

/-- C4: decoding a single-formula body behaves exactly as if the
configuration decoded from the file, merged over the caller's ambient
configuration, governed both the metadata section and the expression
section: the code's pipeline coincides with the spec's description on every
input (the source passes the ambient configuration object to the metadata
parser, but metadata decoding never consults the configuration), and the
merge itself is file-wins-per-option with absent options keeping the
ambient value. -/
theorem c4_merged_configuration :
    (∀ (ambient : CfgView) (s : List Nat),
      singleFormulaReadFrom ambient s = singleFormulaReadFromSpec ambient s) ∧
    (∀ (ambient : CfgView) (fileConfig : OverridableConfig),
      overrideWith (fromConfigFullOverride ambient) fileConfig =
        ⟨some (fileConfig.integerFormat.getD ambient.integerFormat),
          some (fileConfig.floatFormat.getD ambient.floatFormat)⟩) := by
  constructor
  · intro ambient s
    rfl
  · intro ambient fileConfig
    obtain ⟨i, f⟩ := fileConfig
    cases i <;> cases f <;> rfl

end FEFSpec
